import Mathlib

/-!
Shallow embedding of the call/create orchestration layer of `geth/core/vm/evm.go`
(the `Call`, `CallCode`, `DelegateCall`, `StaticCall`, `create`, `Create` and
`Create2` methods of the `EVM` object), together with theorems settling the
frozen claims about it.

Modelling conventions:
* addresses are `Nat` (the orchestrator only compares them and passes them on);
* byte strings are `List Nat`;
* machine `uint64` gas/nonce arithmetic is `Nat` with an explicit `% 2 ^ 64`
  exactly where the Go code can wrap (the nonce-overflow guard and the
  `uint64(len(ret)) * params.CreateDataGas` product);
* the external collaborators that `evm.go` only consumes — the transfer guard
  and transfer callback of `BlockContext`, `RunPrecompiledContract`, the
  interpreter's `Run`, and the `crypto.CreateAddress*` derivations — are
  oracle fields of the `EVM` structure, mirroring how the source receives them
  as function values / foreign calls;
* the `StateDB` interface is modelled as a value type: `Snapshot` captures the
  current value, `RevertToSnapshot` restores it, which realises the documented
  contract that rollback undoes exactly the mutations made after the snapshot;
* tracer hooks (`evm.Config.Debug`) are pure observers and are omitted.
-/

namespace Geth

/-- Error taxonomy of the orchestrator, from `core/vm/errors.go` as used by
`evm.go`; `ErrFault` stands for any other interpreter-reported failure. -/
inductive Err where
  | ErrDepth
  | ErrInsufficientBalance
  | ErrNonceUintOverflow
  | ErrContractAddressCollision
  | ErrMaxCodeSizeExceeded
  | ErrInvalidCode
  | ErrCodeStoreOutOfGas
  | ErrExecutionReverted
  | ErrFault (n : Nat)
deriving DecidableEq, Repr

/-- Code hashes as the orchestrator observes them: `GetCodeHash` returns the
zero hash (`common.Hash{}`) for a nonexistent account and the hash of the
account's code otherwise; hashing is injective on code, so it is modelled as a
constructor. -/
inductive Hash where
  | zero
  | ofCode (code : List Nat)
deriving DecidableEq, Repr

/-- Result of `crypto.Keccak256Hash(nil)`: the hash of empty code, used by
`create` to detect deployed contracts (`evm.go` line 36). -/
def emptyCodeHash : Hash := Hash.ofCode []

/-- One account record of the state store: balance, nonce and code. -/
structure Account where
  balance : Nat
  nonce : Nat
  code : List Nat
deriving DecidableEq, Repr

/-- The `StateDB` interface as consumed by `evm.go`: an account map plus the
Berlin access list. Represented as an association list (later bindings
shadow earlier ones). -/
structure StateDB where
  accounts : List (Nat × Account)
  accessList : List Nat
deriving DecidableEq, Repr

def StateDB.getAccount (st : StateDB) (a : Nat) : Option Account :=
  (st.accounts.find? (fun p => p.1 == a)).map (fun p => p.2)

/-- StateDB.Exist. -/
def StateDB.exist (st : StateDB) (a : Nat) : Bool :=
  (st.getAccount a).isSome

/-- The fresh empty account used by `GetOrNewStateObject`-style accessors. -/
def Account.empty : Account := { balance := 0, nonce := 0, code := [] }

def StateDB.getOrNew (st : StateDB) (a : Nat) : Account :=
  (st.getAccount a).getD Account.empty

def StateDB.setAccount (st : StateDB) (a : Nat) (acc : Account) : StateDB :=
  { st with accounts := (a, acc) :: st.accounts }

/-- StateDB.CreateAccount: a fresh state object; the balance is carried over
when an object already exists at the address. -/
def StateDB.createAccount (st : StateDB) (a : Nat) : StateDB :=
  st.setAccount a { balance := (st.getOrNew a).balance, nonce := 0, code := [] }

/-- StateDB.GetNonce (0 for a nonexistent account). -/
def StateDB.getNonce (st : StateDB) (a : Nat) : Nat :=
  ((st.getAccount a).map Account.nonce).getD 0

/-- StateDB.SetNonce (creates the object when missing). -/
def StateDB.setNonce (st : StateDB) (a : Nat) (n : Nat) : StateDB :=
  st.setAccount a { st.getOrNew a with nonce := n }

/-- StateDB.GetCode (empty for a nonexistent account). -/
def StateDB.getCode (st : StateDB) (a : Nat) : List Nat :=
  ((st.getAccount a).map Account.code).getD []

/-- StateDB.SetCode. -/
def StateDB.setCode (st : StateDB) (a : Nat) (c : List Nat) : StateDB :=
  st.setAccount a { st.getOrNew a with code := c }

/-- StateDB.GetCodeHash: zero hash for a nonexistent account, hash of the
stored code otherwise. -/
def StateDB.getCodeHash (st : StateDB) (a : Nat) : Hash :=
  match st.getAccount a with
  | some acc => Hash.ofCode acc.code
  | none => Hash.zero

/-- StateDB.AddBalance (creates the object when missing — this is what makes
the zero-amount balance add of `StaticCall` an observable touch). -/
def StateDB.addBalance (st : StateDB) (a : Nat) (v : Nat) : StateDB :=
  st.setAccount a { st.getOrNew a with balance := (st.getOrNew a).balance + v }

/-- StateDB.AddAddressToAccessList (idempotent). -/
def StateDB.addAddressToAccessList (st : StateDB) (a : Nat) : StateDB :=
  if st.accessList.contains a then st
  else { st with accessList := a :: st.accessList }

/-- The fork-rule snapshot `params.Rules`, restricted to the flags `evm.go`
consults. -/
structure Rules where
  IsHomestead : Bool
  IsEIP158 : Bool
  IsByzantium : Bool
  IsIstanbul : Bool
  IsBerlin : Bool
  IsLondon : Bool
deriving DecidableEq, Repr

/-- The scoped execution frame (`Contract` object) as far as the orchestrator
populates it: `NewContract` + `SetCallCode` / `SetCodeOptionalHash` /
`AsDelegate`. `value = none` models the `nil` value of delegate frames. -/
structure Contract where
  callerAddress : Nat
  self : Nat
  value : Option Nat
  gas : Nat
  code : List Nat
  codeHash : Hash
  isDelegate : Bool
deriving DecidableEq, Repr

/-- What `evm.interpreter.Run` hands back: output bytes, an outcome, the
frame's remaining gas (`contract.Gas` after the run, mutated in place in the
source) and the state store after the run's own mutations. -/
structure RunResult where
  ret : List Nat
  err : Option Err
  gas : Nat
  state : StateDB
deriving DecidableEq, Repr

/-- params.CallCreateDepth. -/
def CallCreateDepth : Nat := 1024

/-- params.MaxCodeSize. -/
def MaxCodeSize : Nat := 24576

/-- params.CreateDataGas. -/
def CreateDataGas : Nat := 200

/-- The EVM object of `evm.go`, restricted to what the call/create
orchestrator reads. The function-typed fields are the external collaborators:
`canTransfer`/`transfer` are the `BlockContext` callbacks,
`runPrecompiled` is `RunPrecompiledContract` (keyed by address, no state
access), `run` is `evm.interpreter.Run`, and `createAddress`/`createAddress2`
are the `crypto` address derivations used by `Create`/`Create2`. -/
structure EVM where
  depth : Nat
  chainRules : Rules
  canTransfer : StateDB → Nat → Nat → Bool
  transfer : StateDB → Nat → Nat → Nat → StateDB
  runPrecompiled : Nat → List Nat → Nat → List Nat × Nat × Option Err
  run : StateDB → Contract → List Nat → Bool → RunResult
  createAddress : Nat → Nat → Nat
  createAddress2 : Nat → Nat → Hash → Nat

/-- The fork-versioned precompile address sets (`PrecompiledContracts*` keys),
selected exactly as `evm.precompile` does. -/
def EVM.precompiledAddresses (evm : EVM) : List Nat :=
  if evm.chainRules.IsBerlin = true then [1, 2, 3, 4, 5, 6, 7, 8, 9]
  else if evm.chainRules.IsIstanbul = true then [1, 2, 3, 4, 5, 6, 7, 8, 9]
  else if evm.chainRules.IsByzantium = true then [1, 2, 3, 4, 5, 6, 7, 8]
  else [1, 2, 3, 4]

/-- The boolean component of `evm.precompile(addr)`. -/
def EVM.isPrecompile (evm : EVM) (addr : Nat) : Bool :=
  evm.precompiledAddresses.contains addr

/-- The shared epilogue of the four call variants (`evm.go` lines 314-324,
368-373, 408-413, 464-469): on a non-nil error revert to the frame's snapshot
and, unless the error is `ErrExecutionReverted`, zero the remaining gas. -/
def finishFrame (snapshot : StateDB) :
    List Nat × Nat × Option Err × StateDB → List Nat × Nat × Option Err × StateDB
  | (ret, g, none, st) => (ret, g, none, st)
  | (ret, g, some e, _) =>
    (ret, if e = Err.ErrExecutionReverted then g else 0, some e, snapshot)

/-- The account-setup + dispatch section of `Call` (lines 244-303): materialise
a missing target, perform the transfer, then run the precompile or — when the
target's code is nonempty — the interpreter on a frame bound to the target. -/
def CallBody (evm : EVM) (st : StateDB) (caller addr : Nat) (input : List Nat)
    (gas : Nat) (value : Nat) : List Nat × Nat × Option Err × StateDB :=
  let st1 := if st.exist addr = false then st.createAccount addr else st
  let st2 := evm.transfer st1 caller addr value
  if evm.isPrecompile addr = true then
    let p := evm.runPrecompiled addr input gas
    (p.1, p.2.1, p.2.2, st2)
  else
    let code := st2.getCode addr
    if code = [] then ([], gas, none, st2)
    else
      let r := evm.run st2
        { callerAddress := caller, self := addr, value := some value, gas := gas,
          code := code, codeHash := st2.getCodeHash addr, isDelegate := false } input false
      (r.ret, r.gas, r.err, r.state)

/-- EVM.Call (lines 224-325). Result components: output bytes, leftover gas,
error, state store. -/
def Call (evm : EVM) (st : StateDB) (caller addr : Nat) (input : List Nat)
    (gas : Nat) (value : Nat) : List Nat × Nat × Option Err × StateDB :=
  if CallCreateDepth < evm.depth then ([], gas, some Err.ErrDepth, st)
  else if value ≠ 0 ∧ evm.canTransfer st caller value = false then
    ([], gas, some Err.ErrInsufficientBalance, st)
  else if st.exist addr = false ∧ evm.isPrecompile addr = false ∧
      evm.chainRules.IsEIP158 = true ∧ value = 0 then
    ([], gas, none, st)
  else finishFrame st (CallBody evm st caller addr input gas value)

/-- The dispatch section of `CallCode` (lines 356-367): target code runs with
the caller's own address as the frame's self-address. -/
def CallCodeBody (evm : EVM) (st : StateDB) (caller addr : Nat) (input : List Nat)
    (gas : Nat) (value : Nat) : List Nat × Nat × Option Err × StateDB :=
  if evm.isPrecompile addr = true then
    let p := evm.runPrecompiled addr input gas
    (p.1, p.2.1, p.2.2, st)
  else
    let r := evm.run st
      { callerAddress := caller, self := caller, value := some value, gas := gas,
        code := st.getCode addr, codeHash := st.getCodeHash addr, isDelegate := false }
      input false
    (r.ret, r.gas, r.err, r.state)

/-- EVM.CallCode (lines 334-375). Note the transfer guard is evaluated
unconditionally, with no `value != 0` short-circuit. -/
def CallCode (evm : EVM) (st : StateDB) (caller addr : Nat) (input : List Nat)
    (gas : Nat) (value : Nat) : List Nat × Nat × Option Err × StateDB :=
  if CallCreateDepth < evm.depth then ([], gas, some Err.ErrDepth, st)
  else if evm.canTransfer st caller value = false then
    ([], gas, some Err.ErrInsufficientBalance, st)
  else finishFrame st (CallCodeBody evm st caller addr input gas value)

/-- The dispatch section of `DelegateCall` (lines 397-407): a delegate frame
with nil value and the caller's address as self. -/
def DelegateCallBody (evm : EVM) (st : StateDB) (caller addr : Nat)
    (input : List Nat) (gas : Nat) : List Nat × Nat × Option Err × StateDB :=
  if evm.isPrecompile addr = true then
    let p := evm.runPrecompiled addr input gas
    (p.1, p.2.1, p.2.2, st)
  else
    let r := evm.run st
      { callerAddress := caller, self := caller, value := none, gas := gas,
        code := st.getCode addr, codeHash := st.getCodeHash addr, isDelegate := true }
      input false
    (r.ret, r.gas, r.err, r.state)

/-- EVM.DelegateCall (lines 382-415): no value parameter and no transfer
guard. -/
def DelegateCall (evm : EVM) (st : StateDB) (caller addr : Nat) (input : List Nat)
    (gas : Nat) : List Nat × Nat × Option Err × StateDB :=
  if CallCreateDepth < evm.depth then ([], gas, some Err.ErrDepth, st)
  else finishFrame st (DelegateCallBody evm st caller addr input gas)

/-- The dispatch section of `StaticCall` (lines 447-463): a read-only run of
the target's code with `new(big.Int)` (zero) as the frame value. -/
def StaticCallBody (evm : EVM) (st : StateDB) (caller addr : Nat)
    (input : List Nat) (gas : Nat) : List Nat × Nat × Option Err × StateDB :=
  if evm.isPrecompile addr = true then
    let p := evm.runPrecompiled addr input gas
    (p.1, p.2.1, p.2.2, st)
  else
    let r := evm.run st
      { callerAddress := caller, self := addr, value := some 0, gas := gas,
        code := st.getCode addr, codeHash := st.getCodeHash addr, isDelegate := false }
      input true
    (r.ret, r.gas, r.err, r.state)

/-- EVM.StaticCall (lines 421-471): the snapshot is taken first, then the
zero-amount `AddBalance` touch of the target, then dispatch. -/
def StaticCall (evm : EVM) (st : StateDB) (caller addr : Nat) (input : List Nat)
    (gas : Nat) : List Nat × Nat × Option Err × StateDB :=
  if CallCreateDepth < evm.depth then ([], gas, some Err.ErrDepth, st)
  else finishFrame st (StaticCallBody evm (st.addBalance addr 0) caller addr input gas)

/-- The caller nonce bump plus the Berlin access-list marking of `create`
(lines 514-521) — both precede the snapshot. -/
def createBumped (evm : EVM) (st : StateDB) (caller address : Nat) : StateDB :=
  let st1 := st.setNonce caller (st.getNonce caller + 1)
  if evm.chainRules.IsBerlin = true then st1.addAddressToAccessList address else st1

/-- The collision test of `create` (lines 525-526): nonzero nonce, or a code
hash that is neither the zero hash nor the empty-code hash. -/
def createCollision (st : StateDB) (address : Nat) : Prop :=
  st.getNonce address ≠ 0 ∨
    (st.getCodeHash address ≠ Hash.zero ∧ st.getCodeHash address ≠ emptyCodeHash)

instance (st : StateDB) (a : Nat) : Decidable (createCollision st a) := by
  unfold createCollision
  exact inferInstance

/-- The post-snapshot account setup of `create` (lines 532-536): materialise
the new account, set its nonce to 1 under EIP-158, transfer the endowment. -/
def createSetup (evm : EVM) (st : StateDB) (caller address : Nat) (value : Nat) :
    StateDB :=
  let st3 := st.createAccount address
  let st4 := if evm.chainRules.IsEIP158 = true then st3.setNonce address 1 else st3
  evm.transfer st4 caller address value

/-- The first post-run validation of `create` (lines 562-564): under EIP-158,
an output longer than the maximum code size turns a clean run into
`ErrMaxCodeSizeExceeded`. -/
def validateSize (rules : Rules) (ret : List Nat) (err0 : Option Err) : Option Err :=
  if err0 = none ∧ rules.IsEIP158 = true ∧ MaxCodeSize < ret.length then
    some Err.ErrMaxCodeSizeExceeded
  else err0

/-- The second post-run validation of `create` (lines 568-570): under London
rules, an output whose first byte is `0xEF` turns a clean run into
`ErrInvalidCode`. -/
def validateEF (rules : Rules) (ret : List Nat) (err1 : Option Err) : Option Err :=
  if err1 = none ∧ ret ≠ [] ∧ ret.headD 0 = 0xEF ∧ rules.IsLondon = true then
    some Err.ErrInvalidCode
  else err1

/-- The two post-run validations of `create` (lines 562-570), in source order:
EIP-158 maximum code size first, then the London `0xEF` leading-byte ban; each
fires only when no error is present yet. -/
def createValidate (rules : Rules) (ret : List Nat) (err0 : Option Err) : Option Err :=
  validateEF rules ret (validateSize rules ret err0)

/-- The code-storage step of `create` (lines 581-597): charge
`uint64(len(ret)) * params.CreateDataGas` (with uint64 wrap) against the
frame's remaining gas; on success deploy the output as the new address's code,
otherwise flag `ErrCodeStoreOutOfGas`. Result: remaining gas, error, state. -/
def createStore (ret : List Nat) (gasLeft : Nat) (stRun : StateDB) (address : Nat) :
    Nat × Option Err × StateDB :=
  if (ret.length * CreateDataGas) % 2 ^ 64 ≤ gasLeft then
    (gasLeft - (ret.length * CreateDataGas) % 2 ^ 64, none, stRun.setCode address ret)
  else (gasLeft, some Err.ErrCodeStoreOutOfGas, stRun)

/-- The error epilogue of `create` (lines 605-612): on a non-nil error revert
to the snapshot — unless the error is `ErrCodeStoreOutOfGas` under
pre-Homestead rules — and, on a rollback with an error other than
`ErrExecutionReverted`, consume all the frame's remaining gas. -/
def createEpilogue (rules : Rules) (ret : List Nat) (address : Nat) (g : Nat)
    (e? : Option Err) (st1 snapshot : StateDB) :
    List Nat × Nat × Nat × Option Err × StateDB :=
  match e? with
  | none => (ret, address, g, none, st1)
  | some e =>
    if rules.IsHomestead = true ∨ e ≠ Err.ErrCodeStoreOutOfGas then
      (ret, address, if e = Err.ErrExecutionReverted then g else 0, some e, snapshot)
    else (ret, address, g, some e, st1)

/-- The post-run tail of `create` (lines 562-612): validations, then — when no
error is present — the code-storage step, then the error epilogue. Arguments
are the interpreter run's output/outcome/remaining-gas/state plus the frame's
snapshot. Result components: output bytes, contract address, leftover gas,
error, state. -/
def createFinish (rules : Rules) (ret : List Nat) (err0 : Option Err)
    (gasLeft : Nat) (stRun snapshot : StateDB) (address : Nat) :
    List Nat × Nat × Nat × Option Err × StateDB :=
  match createValidate rules ret err0 with
  | none =>
    let s := createStore ret gasLeft stRun address
    createEpilogue rules ret address s.1 s.2.1 s.2.2 snapshot
  | some e => createEpilogue rules ret address gasLeft (some e) stRun snapshot

/-- EVM.create (lines 496-622). Result components: output bytes, contract
address, leftover gas, error, state store. -/
def create (evm : EVM) (st : StateDB) (caller : Nat) (code : List Nat)
    (gas : Nat) (value : Nat) (address : Nat) :
    List Nat × Nat × Nat × Option Err × StateDB :=
  if CallCreateDepth < evm.depth then ([], 0, gas, some Err.ErrDepth, st)
  else if evm.canTransfer st caller value = false then
    ([], 0, gas, some Err.ErrInsufficientBalance, st)
  else if (st.getNonce caller + 1) % 2 ^ 64 < st.getNonce caller then
    ([], 0, gas, some Err.ErrNonceUintOverflow, st)
  else
    let st2 := createBumped evm st caller address
    if createCollision st2 address then
      ([], 0, 0, some Err.ErrContractAddressCollision, st2)
    else
      let st5 := createSetup evm st2 caller address value
      let r := evm.run st5
        { callerAddress := caller, self := address, value := some value, gas := gas,
          code := code, codeHash := Hash.ofCode code, isDelegate := false } [] false
      createFinish evm.chainRules r.ret r.err r.gas r.state st2 address

/-- EVM.Create (lines 625-628): sender-and-nonce address derivation. -/
def Create (evm : EVM) (st : StateDB) (caller : Nat) (code : List Nat)
    (gas : Nat) (value : Nat) : List Nat × Nat × Nat × Option Err × StateDB :=
  create evm st caller code gas value (evm.createAddress caller (st.getNonce caller))

/-- EVM.Create2 (lines 634-638): salt-and-code-hash address derivation. -/
def Create2 (evm : EVM) (st : StateDB) (caller : Nat) (code : List Nat)
    (gas : Nat) (endowment : Nat) (salt : Nat) :
    List Nat × Nat × Nat × Option Err × StateDB :=
  create evm st caller code gas endowment (evm.createAddress2 caller salt (Hash.ofCode code))

/-! Concrete instances used to evaluate the orchestrator on specific inputs. -/

/-- A fork-rule snapshot with every flag off (frontier-era rules). -/
def rulesOff : Rules :=
  { IsHomestead := false, IsEIP158 := false, IsByzantium := false,
    IsIstanbul := false, IsBerlin := false, IsLondon := false }

/-- Frontier rules with EIP-158 switched on. -/
def rules158 : Rules := { rulesOff with IsEIP158 := true }

/-- An interpreter oracle that succeeds immediately: empty output, no error,
gas and state untouched. -/
def stubRun : StateDB → Contract → List Nat → Bool → RunResult :=
  fun stx c _ _ => { ret := [], err := none, gas := c.gas, state := stx }

/-- An interpreter oracle that signals an explicit revert after spending one
unit of gas. -/
def revRun : StateDB → Contract → List Nat → Bool → RunResult :=
  fun stx c _ _ =>
    { ret := [2], err := some Err.ErrExecutionReverted, gas := c.gas - 1, state := stx }

/-- An interpreter oracle that faults after spending one unit of gas, leaving
its own mutation (a balance bump of account 77) in the state it hands back. -/
def faultRun : StateDB → Contract → List Nat → Bool → RunResult :=
  fun stx c _ _ =>
    { ret := [3], err := some (Err.ErrFault 0), gas := c.gas - 1,
      state := stx.addBalance 77 1 }

/-- A concrete EVM at the given depth and fork rules: permissive transfer
guard, no-op transfer, succeed-with-given-gas precompiles, `stubRun`
interpreter. -/
def mkEVM (d : Nat) (rules : Rules) : EVM :=
  { depth := d, chainRules := rules,
    canTransfer := fun _ _ _ => true,
    transfer := fun s _ _ _ => s,
    runPrecompiled := fun _ _ g => ([], g, none),
    run := stubRun,
    createAddress := fun _ _ => 0,
    createAddress2 := fun _ _ _ => 0 }

/-- The empty state store. -/
def st0 : StateDB := { accounts := [], accessList := [] }

/-- A state store whose account 9 already has nonce 1 (a creation-collision
target). -/
def stC : StateDB :=
  { accounts := [(9, { balance := 0, nonce := 1, code := [] })], accessList := [] }

/-- A state store whose account 5 holds one byte of code. -/
def wSt : StateDB :=
  { accounts := [(5, { balance := 0, nonce := 0, code := [1] })], accessList := [] }

/-- Frontier rules with Berlin access-list accounting switched on. -/
def rulesB : Rules := { rulesOff with IsBerlin := true }

/-- A concrete EVM whose interpreter signals an explicit revert. -/
def revEvm : EVM := { mkEVM 0 rulesOff with run := revRun }

/-- A concrete EVM whose interpreter faults. -/
def faultEvm : EVM := { mkEVM 0 rulesOff with run := faultRun }

/-- A concrete EVM under Berlin rules. -/
def evmB : EVM := mkEVM 0 rulesB

/-- A concrete EVM whose transfer guard declines every transfer. -/
def noTransferEvm : EVM := { mkEVM 0 rulesOff with canTransfer := fun _ _ _ => false }

/-! Helper lemmas about the state store, the shared call epilogue and the
create tail. -/

theorem StateDB.getNonce_setNonce_self (st : StateDB) (a v : Nat) :
    (st.setNonce a v).getNonce a = v := by
  simp [StateDB.getNonce, StateDB.setNonce, StateDB.setAccount, StateDB.getAccount,
    List.find?]

theorem StateDB.getNonce_addAddressToAccessList (st : StateDB) (x a : Nat) :
    (st.addAddressToAccessList x).getNonce a = st.getNonce a := by
  unfold StateDB.addAddressToAccessList
  split
  · rfl
  · rfl

theorem StateDB.accessList_addAddressToAccessList_self (st : StateDB) (a : Nat) :
    (st.addAddressToAccessList a).accessList.contains a = true := by
  unfold StateDB.addAddressToAccessList
  split
  · assumption
  · simp

theorem createBumped_getNonce (evm : EVM) (st : StateDB) (caller address : Nat) :
    (createBumped evm st caller address).getNonce caller = st.getNonce caller + 1 := by
  unfold createBumped
  split
  · rw [StateDB.getNonce_addAddressToAccessList, StateDB.getNonce_setNonce_self]
  · rw [StateDB.getNonce_setNonce_self]

theorem createBumped_accessList (evm : EVM) (st : StateDB) (caller address : Nat)
    (hB : evm.chainRules.IsBerlin = true) :
    (createBumped evm st caller address).accessList.contains address = true := by
  unfold createBumped
  rw [if_pos hB]
  exact StateDB.accessList_addAddressToAccessList_self _ _

theorem finishFrame_gas_le (s : StateDB) (b : List Nat × Nat × Option Err × StateDB) :
    (finishFrame s b).2.1 ≤ b.2.1 := by
  obtain ⟨r, g, e?, st1⟩ := b
  cases e? with
  | none => exact Nat.le_refl g
  | some e =>
    show (if e = Err.ErrExecutionReverted then g else 0) ≤ g
    split
    · exact Nat.le_refl g
    · exact Nat.zero_le g

theorem finishFrame_some_inv (s : StateDB) (b : List Nat × Nat × Option Err × StateDB)
    (ret : List Nat) (g : Nat) (e : Err) (stO : StateDB)
    (h : finishFrame s b = (ret, g, some e, stO)) :
    stO = s ∧ (e ≠ Err.ErrExecutionReverted → g = 0) := by
  obtain ⟨r0, g0, e0, s0⟩ := b
  cases e0 with
  | none => simp [finishFrame] at h
  | some e1 =>
    simp only [finishFrame, Prod.mk.injEq, Option.some.injEq] at h
    obtain ⟨-, hg, he, hs⟩ := h
    subst he
    refine ⟨hs.symm, fun hne => ?_⟩
    rw [← hg, if_neg hne]

theorem finishFrame_none_inv (s : StateDB) (b : List Nat × Nat × Option Err × StateDB)
    (ret : List Nat) (g : Nat) (stO : StateDB)
    (h : finishFrame s b = (ret, g, none, stO)) :
    b = (ret, g, none, stO) := by
  obtain ⟨r0, g0, e0, s0⟩ := b
  cases e0 with
  | none => exact h
  | some e1 => simp [finishFrame] at h

theorem createStore_gas_le (ret : List Nat) (gasLeft : Nat) (stRun : StateDB)
    (address : Nat) : (createStore ret gasLeft stRun address).1 ≤ gasLeft := by
  unfold createStore
  split
  · exact Nat.sub_le _ _
  · exact Nat.le_refl _

theorem createStore_some_inv (ret : List Nat) (gasLeft : Nat) (stRun : StateDB)
    (address : Nat) (g : Nat) (e : Err) (st1 : StateDB)
    (h : createStore ret gasLeft stRun address = (g, some e, st1)) :
    g = gasLeft ∧ e = Err.ErrCodeStoreOutOfGas ∧ st1 = stRun := by
  unfold createStore at h
  split at h
  · simp at h
  · simp only [Prod.mk.injEq, Option.some.injEq] at h
    exact ⟨h.1.symm, h.2.1.symm, h.2.2.symm⟩

theorem createEpilogue_gas_le (rules : Rules) (ret : List Nat) (address : Nat)
    (g : Nat) (e? : Option Err) (st1 snapshot : StateDB) :
    (createEpilogue rules ret address g e? st1 snapshot).2.2.1 ≤ g := by
  cases e? with
  | none => exact Nat.le_refl g
  | some e =>
    simp only [createEpilogue]
    split
    · split
      · exact Nat.le_refl g
      · exact Nat.zero_le g
    · exact Nat.le_refl g

theorem createEpilogue_some_inv (rules : Rules) (ret : List Nat) (address : Nat)
    (g0 : Nat) (e0 : Option Err) (st1 snapshot : StateDB)
    (r : List Nat) (a g : Nat) (e : Err) (stOut : StateDB)
    (h : createEpilogue rules ret address g0 e0 st1 snapshot = (r, a, g, some e, stOut)) :
    e0 = some e ∧
      ((rules.IsHomestead = true ∨ e ≠ Err.ErrCodeStoreOutOfGas) →
        stOut = snapshot ∧ (e ≠ Err.ErrExecutionReverted → g = 0)) ∧
      (rules.IsHomestead = false → e = Err.ErrCodeStoreOutOfGas →
        stOut = st1 ∧ g = g0) := by
  cases e0 with
  | none => simp [createEpilogue] at h
  | some e1 =>
    simp only [createEpilogue] at h
    split at h
    · rename_i hcond
      simp only [Prod.mk.injEq, Option.some.injEq] at h
      obtain ⟨-, -, hg, he, hs⟩ := h
      subst he
      refine ⟨rfl, fun _ => ⟨hs.symm, fun hne => ?_⟩, fun hH hcs => ?_⟩
      · rw [← hg, if_neg hne]
      · exact absurd hcond (by simp [hH, hcs])
    · rename_i hcond
      simp only [Prod.mk.injEq, Option.some.injEq] at h
      obtain ⟨-, -, hg, he, hs⟩ := h
      subst he
      exact ⟨rfl, fun hrb => absurd hrb hcond, fun _ _ => ⟨hs.symm, hg.symm⟩⟩

theorem createFinish_gas_le (rules : Rules) (ret : List Nat) (err0 : Option Err)
    (gasLeft : Nat) (stRun snapshot : StateDB) (address : Nat) :
    (createFinish rules ret err0 gasLeft stRun snapshot address).2.2.1 ≤ gasLeft := by
  rcases hV : createValidate rules ret err0 with _ | eV
  · have heq : createFinish rules ret err0 gasLeft stRun snapshot address =
        createEpilogue rules ret address (createStore ret gasLeft stRun address).1
          (createStore ret gasLeft stRun address).2.1
          (createStore ret gasLeft stRun address).2.2 snapshot := by
      simp only [createFinish, hV]
    rw [heq]
    exact Nat.le_trans
      (createEpilogue_gas_le rules ret address _ _ _ snapshot)
      (createStore_gas_le ret gasLeft stRun address)
  · have heq : createFinish rules ret err0 gasLeft stRun snapshot address =
        createEpilogue rules ret address gasLeft (some eV) stRun snapshot := by
      simp only [createFinish, hV]
    rw [heq]
    exact createEpilogue_gas_le rules ret address gasLeft (some eV) stRun snapshot

theorem createFinish_some_inv (rules : Rules) (ret : List Nat) (err0 : Option Err)
    (gasLeft : Nat) (stRun snapshot : StateDB) (address : Nat)
    (r : List Nat) (a g : Nat) (e : Err) (stOut : StateDB)
    (h : createFinish rules ret err0 gasLeft stRun snapshot address = (r, a, g, some e, stOut)) :
    ((rules.IsHomestead = true ∨ e ≠ Err.ErrCodeStoreOutOfGas) →
        stOut = snapshot ∧ (e ≠ Err.ErrExecutionReverted → g = 0)) ∧
      (rules.IsHomestead = false → e = Err.ErrCodeStoreOutOfGas →
        stOut = stRun ∧ g = gasLeft) := by
  rcases hV : createValidate rules ret err0 with _ | eV
  · simp only [createFinish, hV] at h
    rcases hS : createStore ret gasLeft stRun address with ⟨g0, e0, s0⟩
    rw [hS] at h
    have hinv := createEpilogue_some_inv rules ret address g0 e0 s0 snapshot r a g e stOut h
    obtain ⟨he0, h1, h2⟩ := hinv
    subst he0
    obtain ⟨hg0, -, hs0⟩ := createStore_some_inv ret gasLeft stRun address g0 e s0 hS
    subst hg0; subst hs0
    exact ⟨h1, h2⟩
  · simp only [createFinish, hV] at h
    have hinv := createEpilogue_some_inv rules ret address gasLeft (some eV) stRun snapshot
      r a g e stOut h
    exact ⟨hinv.2.1, hinv.2.2⟩

theorem createEpilogue_ret (rules : Rules) (ret : List Nat) (address : Nat)
    (g : Nat) (e? : Option Err) (st1 snapshot : StateDB) :
    (createEpilogue rules ret address g e? st1 snapshot).1 = ret := by
  cases e? with
  | none => rfl
  | some e =>
    simp only [createEpilogue]
    split
    · rfl
    · rfl

theorem createEpilogue_err_component (rules : Rules) (ret : List Nat) (address : Nat)
    (g : Nat) (e : Err) (st1 snapshot : StateDB) :
    (createEpilogue rules ret address g (some e) st1 snapshot).2.2.2.1 = some e := by
  simp only [createEpilogue]
  split
  · rfl
  · rfl

theorem createFinish_ret (rules : Rules) (ret : List Nat) (err0 : Option Err)
    (gasLeft : Nat) (stRun snapshot : StateDB) (address : Nat) :
    (createFinish rules ret err0 gasLeft stRun snapshot address).1 = ret := by
  rcases hV : createValidate rules ret err0 with _ | eV
  · simp only [createFinish, hV]
    exact createEpilogue_ret rules ret address _ _ _ snapshot
  · simp only [createFinish, hV]
    exact createEpilogue_ret rules ret address _ _ _ snapshot

theorem CallBody_gas_le (evm : EVM) (st : StateDB) (caller addr : Nat)
    (input : List Nat) (gas value : Nat)
    (hpre : ∀ a i g, (evm.runPrecompiled a i g).2.1 ≤ g)
    (hrun : ∀ stx c i ro, (evm.run stx c i ro).gas ≤ c.gas) :
    (CallBody evm st caller addr input gas value).2.1 ≤ gas := by
  simp only [CallBody]
  split
  · exact hpre addr input gas
  · split
    · split
      · exact Nat.le_refl gas
      · exact hrun _ _ _ _
    · split
      · exact Nat.le_refl gas
      · exact hrun _ _ _ _

theorem CallCodeBody_gas_le (evm : EVM) (st : StateDB) (caller addr : Nat)
    (input : List Nat) (gas value : Nat)
    (hpre : ∀ a i g, (evm.runPrecompiled a i g).2.1 ≤ g)
    (hrun : ∀ stx c i ro, (evm.run stx c i ro).gas ≤ c.gas) :
    (CallCodeBody evm st caller addr input gas value).2.1 ≤ gas := by
  simp only [CallCodeBody]
  split
  · exact hpre addr input gas
  · exact hrun _ _ _ _

theorem DelegateCallBody_gas_le (evm : EVM) (st : StateDB) (caller addr : Nat)
    (input : List Nat) (gas : Nat)
    (hpre : ∀ a i g, (evm.runPrecompiled a i g).2.1 ≤ g)
    (hrun : ∀ stx c i ro, (evm.run stx c i ro).gas ≤ c.gas) :
    (DelegateCallBody evm st caller addr input gas).2.1 ≤ gas := by
  simp only [DelegateCallBody]
  split
  · exact hpre addr input gas
  · exact hrun _ _ _ _

theorem StaticCallBody_gas_le (evm : EVM) (st : StateDB) (caller addr : Nat)
    (input : List Nat) (gas : Nat)
    (hpre : ∀ a i g, (evm.runPrecompiled a i g).2.1 ≤ g)
    (hrun : ∀ stx c i ro, (evm.run stx c i ro).gas ≤ c.gas) :
    (StaticCallBody evm st caller addr input gas).2.1 ≤ gas := by
  simp only [StaticCallBody]
  split
  · exact hpre addr input gas
  · exact hrun _ _ _ _

theorem Call_gas_le (evm : EVM) (st : StateDB) (caller addr : Nat)
    (input : List Nat) (gas value : Nat)
    (hpre : ∀ a i g, (evm.runPrecompiled a i g).2.1 ≤ g)
    (hrun : ∀ stx c i ro, (evm.run stx c i ro).gas ≤ c.gas) :
    (Call evm st caller addr input gas value).2.1 ≤ gas := by
  simp only [Call]
  split
  · exact Nat.le_refl gas
  · split
    · exact Nat.le_refl gas
    · split
      · exact Nat.le_refl gas
      · exact Nat.le_trans (finishFrame_gas_le st _)
          (CallBody_gas_le evm st caller addr input gas value hpre hrun)

theorem CallCode_gas_le (evm : EVM) (st : StateDB) (caller addr : Nat)
    (input : List Nat) (gas value : Nat)
    (hpre : ∀ a i g, (evm.runPrecompiled a i g).2.1 ≤ g)
    (hrun : ∀ stx c i ro, (evm.run stx c i ro).gas ≤ c.gas) :
    (CallCode evm st caller addr input gas value).2.1 ≤ gas := by
  simp only [CallCode]
  split
  · exact Nat.le_refl gas
  · split
    · exact Nat.le_refl gas
    · exact Nat.le_trans (finishFrame_gas_le st _)
        (CallCodeBody_gas_le evm st caller addr input gas value hpre hrun)

theorem DelegateCall_gas_le (evm : EVM) (st : StateDB) (caller addr : Nat)
    (input : List Nat) (gas : Nat)
    (hpre : ∀ a i g, (evm.runPrecompiled a i g).2.1 ≤ g)
    (hrun : ∀ stx c i ro, (evm.run stx c i ro).gas ≤ c.gas) :
    (DelegateCall evm st caller addr input gas).2.1 ≤ gas := by
  simp only [DelegateCall]
  split
  · exact Nat.le_refl gas
  · exact Nat.le_trans (finishFrame_gas_le st _)
      (DelegateCallBody_gas_le evm st caller addr input gas hpre hrun)

theorem StaticCall_gas_le (evm : EVM) (st : StateDB) (caller addr : Nat)
    (input : List Nat) (gas : Nat)
    (hpre : ∀ a i g, (evm.runPrecompiled a i g).2.1 ≤ g)
    (hrun : ∀ stx c i ro, (evm.run stx c i ro).gas ≤ c.gas) :
    (StaticCall evm st caller addr input gas).2.1 ≤ gas := by
  simp only [StaticCall]
  split
  · exact Nat.le_refl gas
  · exact Nat.le_trans (finishFrame_gas_le st _)
      (StaticCallBody_gas_le evm _ caller addr input gas hpre hrun)

theorem create_gas_le (evm : EVM) (st : StateDB) (caller : Nat) (code : List Nat)
    (gas value address : Nat)
    (hrun : ∀ stx c i ro, (evm.run stx c i ro).gas ≤ c.gas) :
    (create evm st caller code gas value address).2.2.1 ≤ gas := by
  simp only [create]
  split
  · exact Nat.le_refl gas
  · split
    · exact Nat.le_refl gas
    · split
      · exact Nat.le_refl gas
      · split
        · exact Nat.zero_le gas
        · exact Nat.le_trans (createFinish_gas_le _ _ _ _ _ _ _) (hrun _ _ _ _)

theorem Call_some_inv (evm : EVM) (st : StateDB) (caller addr : Nat)
    (input : List Nat) (gas value : Nat) (ret : List Nat) (g : Nat) (e : Err)
    (stO : StateDB)
    (hd : ¬ CallCreateDepth < evm.depth)
    (hv : ¬ (value ≠ 0 ∧ evm.canTransfer st caller value = false))
    (h : Call evm st caller addr input gas value = (ret, g, some e, stO)) :
    stO = st ∧ (e ≠ Err.ErrExecutionReverted → g = 0) := by
  simp only [Call] at h
  rw [if_neg hd, if_neg hv] at h
  split at h
  · simp at h
  · exact finishFrame_some_inv st _ ret g e stO h

theorem CallCode_some_inv (evm : EVM) (st : StateDB) (caller addr : Nat)
    (input : List Nat) (gas value : Nat) (ret : List Nat) (g : Nat) (e : Err)
    (stO : StateDB)
    (hd : ¬ CallCreateDepth < evm.depth)
    (hv : ¬ evm.canTransfer st caller value = false)
    (h : CallCode evm st caller addr input gas value = (ret, g, some e, stO)) :
    stO = st ∧ (e ≠ Err.ErrExecutionReverted → g = 0) := by
  simp only [CallCode] at h
  rw [if_neg hd, if_neg hv] at h
  exact finishFrame_some_inv st _ ret g e stO h

theorem DelegateCall_some_inv (evm : EVM) (st : StateDB) (caller addr : Nat)
    (input : List Nat) (gas : Nat) (ret : List Nat) (g : Nat) (e : Err)
    (stO : StateDB)
    (hd : ¬ CallCreateDepth < evm.depth)
    (h : DelegateCall evm st caller addr input gas = (ret, g, some e, stO)) :
    stO = st ∧ (e ≠ Err.ErrExecutionReverted → g = 0) := by
  simp only [DelegateCall] at h
  rw [if_neg hd] at h
  exact finishFrame_some_inv st _ ret g e stO h

theorem StaticCall_some_inv (evm : EVM) (st : StateDB) (caller addr : Nat)
    (input : List Nat) (gas : Nat) (ret : List Nat) (g : Nat) (e : Err)
    (stO : StateDB)
    (hd : ¬ CallCreateDepth < evm.depth)
    (h : StaticCall evm st caller addr input gas = (ret, g, some e, stO)) :
    stO = st ∧ (e ≠ Err.ErrExecutionReverted → g = 0) := by
  simp only [StaticCall] at h
  rw [if_neg hd] at h
  exact finishFrame_some_inv st _ ret g e stO h

theorem create_some_inv (evm : EVM) (st : StateDB) (caller : Nat) (code : List Nat)
    (gas value address : Nat) (r : List Nat) (a g : Nat) (e : Err) (stO : StateDB)
    (hd : ¬ CallCreateDepth < evm.depth)
    (hv : ¬ evm.canTransfer st caller value = false)
    (hn : ¬ (st.getNonce caller + 1) % 2 ^ 64 < st.getNonce caller)
    (h : create evm st caller code gas value address = (r, a, g, some e, stO))
    (he : e ≠ Err.ErrExecutionReverted)
    (hrb : evm.chainRules.IsHomestead = true ∨ e ≠ Err.ErrCodeStoreOutOfGas) :
    g = 0 := by
  simp only [create] at h
  rw [if_neg hd, if_neg hv, if_neg hn] at h
  split at h
  · simp only [Prod.mk.injEq, Option.some.injEq] at h
    exact h.2.2.1.symm
  · exact ((createFinish_some_inv _ _ _ _ _ _ _ r a g e stO h).1 hrb).2 he

/-! The frozen claims. -/

/-- C1: for every call variant (Call, CallCode, DelegateCall, StaticCall),
whenever the dispatched execution (precompile or interpreter) returns a
non-nil error, the state store is rolled back to the snapshot taken by that
frame, and the returned leftover gas is zero unless the error is exactly
`ErrExecutionReverted`, in which case the leftover gas reported by the frame
is returned unchanged. -/
theorem call_variants_dispatch_error_rollback :
    (∀ (evm : EVM) (st : StateDB) (caller addr : Nat) (input : List Nat)
      (gas value : Nat) (ret : List Nat) (g : Nat) (e : Err) (st1 : StateDB),
      ¬ CallCreateDepth < evm.depth →
      ¬ (value ≠ 0 ∧ evm.canTransfer st caller value = false) →
      ¬ (st.exist addr = false ∧ evm.isPrecompile addr = false ∧
          evm.chainRules.IsEIP158 = true ∧ value = 0) →
      CallBody evm st caller addr input gas value = (ret, g, some e, st1) →
      Call evm st caller addr input gas value =
        (ret, if e = Err.ErrExecutionReverted then g else 0, some e, st)) ∧
    (∀ (evm : EVM) (st : StateDB) (caller addr : Nat) (input : List Nat)
      (gas value : Nat) (ret : List Nat) (g : Nat) (e : Err) (st1 : StateDB),
      ¬ CallCreateDepth < evm.depth →
      ¬ evm.canTransfer st caller value = false →
      CallCodeBody evm st caller addr input gas value = (ret, g, some e, st1) →
      CallCode evm st caller addr input gas value =
        (ret, if e = Err.ErrExecutionReverted then g else 0, some e, st)) ∧
    (∀ (evm : EVM) (st : StateDB) (caller addr : Nat) (input : List Nat)
      (gas : Nat) (ret : List Nat) (g : Nat) (e : Err) (st1 : StateDB),
      ¬ CallCreateDepth < evm.depth →
      DelegateCallBody evm st caller addr input gas = (ret, g, some e, st1) →
      DelegateCall evm st caller addr input gas =
        (ret, if e = Err.ErrExecutionReverted then g else 0, some e, st)) ∧
    (∀ (evm : EVM) (st : StateDB) (caller addr : Nat) (input : List Nat)
      (gas : Nat) (ret : List Nat) (g : Nat) (e : Err) (st1 : StateDB),
      ¬ CallCreateDepth < evm.depth →
      StaticCallBody evm (st.addBalance addr 0) caller addr input gas = (ret, g, some e, st1) →
      StaticCall evm st caller addr input gas =
        (ret, if e = Err.ErrExecutionReverted then g else 0, some e, st)) := by
  refine ⟨?_, ?_, ?_, ?_⟩
  · intro evm st caller addr input gas value ret g e st1 hd hv hn hb
    simp only [Call]
    rw [if_neg hd, if_neg hv, if_neg hn, hb]
    rfl
  · intro evm st caller addr input gas value ret g e st1 hd hv hb
    simp only [CallCode]
    rw [if_neg hd, if_neg hv, hb]
    rfl
  · intro evm st caller addr input gas ret g e st1 hd hb
    simp only [DelegateCall]
    rw [if_neg hd, hb]
    rfl
  · intro evm st caller addr input gas ret g e st1 hd hb
    simp only [StaticCall]
    rw [if_neg hd, hb]
    rfl

/-- C1 witness: a concrete Call whose interpreter run reverts with 8 gas left
out of 9; the orchestrator rolls the state back to the entry state and keeps
the 8 gas. -/
theorem call_variants_dispatch_error_rollback_witness :
    Call revEvm wSt 1 5 [] 9 0 = ([2], 8, some Err.ErrExecutionReverted, wSt) := by
  exact call_variants_dispatch_error_rollback.1 revEvm wSt 1 5 [] 9 0 [2] 8
    Err.ErrExecutionReverted wSt (by decide) (by decide) (by decide) rfl

/-- C2 counterexample: at recursion depth exactly 1024 (the fixed maximum) a
Call does not fail at all — the depth guard `evm.depth > 1024` only fires
strictly above the maximum; here the call returns no error (and even
materialises the missing target account). -/
theorem depth_at_limit_counterexample :
    (mkEVM 1024 rulesOff).depth = CallCreateDepth ∧
      Call (mkEVM 1024 rulesOff) st0 1 5 [] 7 0 = ([], 7, none, st0.createAccount 5) := by
  exact ⟨rfl, rfl⟩

/-- C2 (amended): for every call or create variant invoked when the recursion
depth strictly exceeds the fixed maximum (1024), the operation fails with
`ErrDepth`, returns leftover gas equal to the gas it was given, and performs
no state mutation. -/
theorem depth_exceeded_all_variants (evm : EVM) (st : StateDB) (caller addr : Nat)
    (input : List Nat) (gas value : Nat) (code : List Nat) (address salt : Nat)
    (h : CallCreateDepth < evm.depth) :
    Call evm st caller addr input gas value = ([], gas, some Err.ErrDepth, st) ∧
    CallCode evm st caller addr input gas value = ([], gas, some Err.ErrDepth, st) ∧
    DelegateCall evm st caller addr input gas = ([], gas, some Err.ErrDepth, st) ∧
    StaticCall evm st caller addr input gas = ([], gas, some Err.ErrDepth, st) ∧
    create evm st caller code gas value address = ([], 0, gas, some Err.ErrDepth, st) ∧
    Create evm st caller code gas value = ([], 0, gas, some Err.ErrDepth, st) ∧
    Create2 evm st caller code gas value salt = ([], 0, gas, some Err.ErrDepth, st) := by
  refine ⟨?_, ?_, ?_, ?_, ?_, ?_, ?_⟩
  · simp only [Call]; rw [if_pos h]
  · simp only [CallCode]; rw [if_pos h]
  · simp only [DelegateCall]; rw [if_pos h]
  · simp only [StaticCall]; rw [if_pos h]
  · simp only [create]; rw [if_pos h]
  · simp only [Create, create]; rw [if_pos h]
  · simp only [Create2, create]; rw [if_pos h]

/-- C2 witness: at depth 1025 a concrete Call fails with the depth error and
full gas returned. -/
theorem depth_exceeded_all_variants_witness :
    Call (mkEVM 1025 rulesOff) st0 1 5 [] 7 0 = ([], 7, some Err.ErrDepth, st0) := by
  exact (depth_exceeded_all_variants (mkEVM 1025 rulesOff) st0 1 5 [] 7 0 [] 9 0
    (by decide)).1

/-- C3 counterexample: a create against a target whose nonce is already 1
returns the collision error with leftover gas 0, not the full given gas 7 —
the collision return consumes all gas. -/
theorem create_collision_gas_counterexample :
    (create (mkEVM 0 rulesOff) stC 1 [] 7 0 9).2.2.1 = 0 ∧
      (create (mkEVM 0 rulesOff) stC 1 [] 7 0 9).2.2.2.1 =
        some Err.ErrContractAddressCollision ∧
      (0 : Nat) ≠ 7 := by
  exact ⟨rfl, rfl, by decide⟩

/-- C3 (amended): for every create attempt whose collision check fires (the
target address has a non-zero nonce, or a code hash that is neither the zero
hash nor the empty-code hash, as observed after the caller's nonce bump),
create fails with `ErrContractAddressCollision`, returns zero leftover gas
(the given gas is consumed in full even though the error predates the
snapshot), and the caller's nonce remains incremented by 1 from the earlier
nonce-bump step. -/
theorem create_collision_zero_gas_nonce_kept (evm : EVM) (st : StateDB)
    (caller : Nat) (code : List Nat) (gas value address : Nat)
    (hd : ¬ CallCreateDepth < evm.depth)
    (hv : ¬ evm.canTransfer st caller value = false)
    (hn : ¬ (st.getNonce caller + 1) % 2 ^ 64 < st.getNonce caller)
    (hc : createCollision (createBumped evm st caller address) address) :
    create evm st caller code gas value address =
      ([], 0, 0, some Err.ErrContractAddressCollision, createBumped evm st caller address) ∧
    (createBumped evm st caller address).getNonce caller = st.getNonce caller + 1 := by
  constructor
  · simp only [create]
    rw [if_neg hd, if_neg hv, if_neg hn, if_pos hc]
  · exact createBumped_getNonce evm st caller address

/-- C3 witness: the concrete collision at address 9 (nonce already 1), with
given gas 7 consumed in full and caller 1 nonce bumped from 0 to 1. -/
theorem create_collision_zero_gas_nonce_kept_witness :
    create (mkEVM 0 rulesOff) stC 1 [] 7 0 9 =
      ([], 0, 0, some Err.ErrContractAddressCollision,
        createBumped (mkEVM 0 rulesOff) stC 1 9) ∧
    (createBumped (mkEVM 0 rulesOff) stC 1 9).getNonce 1 = stC.getNonce 1 + 1 := by
  exact create_collision_zero_gas_nonce_kept (mkEVM 0 rulesOff) stC 1 [] 7 0 9
    (by decide) (by decide) (by decide) (by decide)

/-- C4: every Call to an address that does not exist in the state store, is
not a precompile, with zero value, under post-EIP-158 rules, returns success
(no error) with empty output and leftover gas equal to the given gas, and
neither creates the account nor mutates the state. -/
theorem call_nonexistent_zero_value_noop (evm : EVM) (st : StateDB)
    (caller addr : Nat) (input : List Nat) (gas : Nat)
    (hd : ¬ CallCreateDepth < evm.depth)
    (hex : st.exist addr = false)
    (hp : evm.isPrecompile addr = false)
    (h158 : evm.chainRules.IsEIP158 = true) :
    Call evm st caller addr input gas 0 = ([], gas, none, st) := by
  have hv : ¬ ((0 : Nat) ≠ 0 ∧ evm.canTransfer st caller 0 = false) := by simp
  have hcond : st.exist addr = false ∧ evm.isPrecompile addr = false ∧
      evm.chainRules.IsEIP158 = true ∧ True := ⟨hex, hp, h158, trivial⟩
  simp only [Call]
  rw [if_neg hd, if_neg hv, if_pos hcond]

/-- C4 witness: a concrete Call to the nonexistent address 5 with zero value
under EIP-158 rules succeeds with empty output, unchanged gas and unchanged
state. -/
theorem call_nonexistent_zero_value_noop_witness :
    Call (mkEVM 0 rules158) st0 1 5 [] 7 0 = ([], 7, none, st0) := by
  exact call_nonexistent_zero_value_noop (mkEVM 0 rules158) st0 1 5 [] 7
    (by decide) (by decide) (by decide) (by decide)

/-- C5: in create, a non-nil error rolls the state back to the frame's
snapshot in every case except when the error is exactly
`ErrCodeStoreOutOfGas` under pre-Homestead rules, where no rollback happens
and the run's own side effects persist; on any rollback with an error other
than `ErrExecutionReverted` all remaining gas of the frame is consumed. The
second conjunct grounds this in `create`: past its preconditions, `create`
is exactly `createFinish` applied to the interpreter run and the frame's
snapshot. -/
theorem create_rollback_with_preHomestead_carveout :
    (∀ (rules : Rules) (ret : List Nat) (err0 : Option Err) (gasLeft : Nat)
      (stRun snapshot : StateDB) (address : Nat) (r : List Nat) (a g : Nat)
      (e : Err) (stOut : StateDB),
      createFinish rules ret err0 gasLeft stRun snapshot address = (r, a, g, some e, stOut) →
      ((rules.IsHomestead = true ∨ e ≠ Err.ErrCodeStoreOutOfGas) →
        stOut = snapshot ∧ (e ≠ Err.ErrExecutionReverted → g = 0)) ∧
      (rules.IsHomestead = false → e = Err.ErrCodeStoreOutOfGas →
        stOut = stRun ∧ g = gasLeft)) ∧
    (∀ (evm : EVM) (st : StateDB) (caller : Nat) (code : List Nat)
      (gas value address : Nat),
      ¬ CallCreateDepth < evm.depth →
      ¬ evm.canTransfer st caller value = false →
      ¬ (st.getNonce caller + 1) % 2 ^ 64 < st.getNonce caller →
      ¬ createCollision (createBumped evm st caller address) address →
      create evm st caller code gas value address =
        createFinish evm.chainRules
          (evm.run (createSetup evm (createBumped evm st caller address) caller address value)
            { callerAddress := caller, self := address, value := some value, gas := gas,
              code := code, codeHash := Hash.ofCode code, isDelegate := false } [] false).ret
          (evm.run (createSetup evm (createBumped evm st caller address) caller address value)
            { callerAddress := caller, self := address, value := some value, gas := gas,
              code := code, codeHash := Hash.ofCode code, isDelegate := false } [] false).err
          (evm.run (createSetup evm (createBumped evm st caller address) caller address value)
            { callerAddress := caller, self := address, value := some value, gas := gas,
              code := code, codeHash := Hash.ofCode code, isDelegate := false } [] false).gas
          (evm.run (createSetup evm (createBumped evm st caller address) caller address value)
            { callerAddress := caller, self := address, value := some value, gas := gas,
              code := code, codeHash := Hash.ofCode code, isDelegate := false } [] false).state
          (createBumped evm st caller address) address) := by
  refine ⟨?_, ?_⟩
  · intro rules ret err0 gasLeft stRun snapshot address r a g e stOut h
    exact createFinish_some_inv rules ret err0 gasLeft stRun snapshot address r a g e stOut h
  · intro evm st caller code gas value address hd hv hn hc
    simp only [create]
    rw [if_neg hd, if_neg hv, if_neg hn, if_neg hc]

/-- C5 witness: a concrete pre-Homestead `ErrCodeStoreOutOfGas` outcome keeps
the run state (no rollback to the snapshot `stC`) and keeps the remaining
gas 5. -/
theorem create_rollback_with_preHomestead_carveout_witness :
    createFinish rulesOff [] (some Err.ErrCodeStoreOutOfGas) 5 wSt stC 9 =
      ([], 9, 5, some Err.ErrCodeStoreOutOfGas, wSt) ∧ wSt = wSt ∧ (5 : Nat) = 5 := by
  refine ⟨rfl, ?_⟩
  exact (create_rollback_with_preHomestead_carveout.1 rulesOff []
    (some Err.ErrCodeStoreOutOfGas) 5 wSt stC 9 [] 9 5 Err.ErrCodeStoreOutOfGas wSt rfl).2
    rfl rfl

/-- C6: in create, after a clean interpreter run the post-run validations
apply in order — EIP-158 maximum code size first, then the London `0xEF`
leading-byte ban — each able to replace success with a failure while the
produced output bytes are still returned; if no validation fires, the
per-byte storage charge (output length times `CreateDataGas`) is deducted
from the frame's remaining gas: a failed deduction yields
`ErrCodeStoreOutOfGas`, a successful one stores the output as the new
address's code. -/
theorem create_postrun_validations (rules : Rules) (ret : List Nat)
    (gasLeft : Nat) (stRun snapshot : StateDB) (address : Nat)
    (hsize : ret.length * CreateDataGas < 2 ^ 64) :
    (createFinish rules ret none gasLeft stRun snapshot address).1 = ret ∧
    (rules.IsEIP158 = true → MaxCodeSize < ret.length →
      (createFinish rules ret none gasLeft stRun snapshot address).2.2.2.1 =
        some Err.ErrMaxCodeSizeExceeded) ∧
    (¬ (rules.IsEIP158 = true ∧ MaxCodeSize < ret.length) →
      ret ≠ [] → ret.headD 0 = 0xEF → rules.IsLondon = true →
      (createFinish rules ret none gasLeft stRun snapshot address).2.2.2.1 =
        some Err.ErrInvalidCode) ∧
    (¬ (rules.IsEIP158 = true ∧ MaxCodeSize < ret.length) →
      ¬ (ret ≠ [] ∧ ret.headD 0 = 0xEF ∧ rules.IsLondon = true) →
      (ret.length * CreateDataGas ≤ gasLeft →
        createFinish rules ret none gasLeft stRun snapshot address =
          (ret, address, gasLeft - ret.length * CreateDataGas, none,
            stRun.setCode address ret)) ∧
      (gasLeft < ret.length * CreateDataGas →
        (createFinish rules ret none gasLeft stRun snapshot address).2.2.2.1 =
          some Err.ErrCodeStoreOutOfGas)) := by
  have hmod : (ret.length * CreateDataGas) % 2 ^ 64 = ret.length * CreateDataGas :=
    Nat.mod_eq_of_lt hsize
  refine ⟨createFinish_ret rules ret none gasLeft stRun snapshot address, ?_, ?_, ?_⟩
  · intro hE hL
    have h1 : (none : Option Err) = none ∧ rules.IsEIP158 = true ∧
        MaxCodeSize < ret.length := ⟨rfl, hE, hL⟩
    have hV : createValidate rules ret none = some Err.ErrMaxCodeSizeExceeded := by
      unfold createValidate validateSize validateEF
      rw [if_pos h1]
      rw [if_neg (show ¬ ((some Err.ErrMaxCodeSizeExceeded : Option Err) = none ∧
        ret ≠ [] ∧ ret.headD 0 = 0xEF ∧ rules.IsLondon = true) from by simp)]
    simp only [createFinish, hV]
    exact createEpilogue_err_component rules ret address gasLeft
      Err.ErrMaxCodeSizeExceeded stRun snapshot
  · intro hno hne hEF hLon
    have h1 : ¬ ((none : Option Err) = none ∧ rules.IsEIP158 = true ∧
        MaxCodeSize < ret.length) := fun hh => hno ⟨hh.2.1, hh.2.2⟩
    have h2 : (none : Option Err) = none ∧ ret ≠ [] ∧ ret.headD 0 = 0xEF ∧
        rules.IsLondon = true := ⟨rfl, hne, hEF, hLon⟩
    have hV : createValidate rules ret none = some Err.ErrInvalidCode := by
      unfold createValidate validateSize validateEF
      rw [if_neg h1]
      rw [if_pos h2]
    simp only [createFinish, hV]
    exact createEpilogue_err_component rules ret address gasLeft
      Err.ErrInvalidCode stRun snapshot
  · intro hno1 hno2
    have h1 : ¬ ((none : Option Err) = none ∧ rules.IsEIP158 = true ∧
        MaxCodeSize < ret.length) := fun hh => hno1 ⟨hh.2.1, hh.2.2⟩
    have h2 : ¬ ((none : Option Err) = none ∧ ret ≠ [] ∧ ret.headD 0 = 0xEF ∧
        rules.IsLondon = true) := fun hh => hno2 hh.2
    have hV : createValidate rules ret none = none := by
      unfold createValidate validateSize validateEF
      rw [if_neg h1]
      rw [if_neg h2]
    refine ⟨?_, ?_⟩
    · intro hle
      have hS : createStore ret gasLeft stRun address =
          (gasLeft - ret.length * CreateDataGas, none, stRun.setCode address ret) := by
        unfold createStore
        rw [hmod]
        rw [if_pos hle]
      simp only [createFinish, hV]
      rw [hS]
      rfl
    · intro hlt
      have hS : createStore ret gasLeft stRun address =
          (gasLeft, some Err.ErrCodeStoreOutOfGas, stRun) := by
        unfold createStore
        rw [hmod]
        rw [if_neg (Nat.not_le.mpr hlt)]
      simp only [createFinish, hV]
      rw [hS]
      exact createEpilogue_err_component rules ret address gasLeft
        Err.ErrCodeStoreOutOfGas stRun snapshot

/-- C6 witness: a clean two-byte output under frontier rules passes both
validations; the 2 x 200 storage charge is deducted from 500 and the output
is stored as address 9's code. -/
theorem create_postrun_validations_witness :
    createFinish rulesOff [1, 2] none 500 wSt stC 9 =
      ([1, 2], 9, 100, none, wSt.setCode 9 [1, 2]) := by
  exact ((create_postrun_validations rulesOff [1, 2] 500 wSt stC 9 (by decide)).2.2.2
    (by decide) (by decide)).1 (by decide)

/-- C7 counterexample: a Call failing the depth precondition returns its full
gas of 5, a non-zero leftover despite the error not being
`ErrExecutionReverted` — so "any error other than Explicit-Revert leaves zero
gas" is false as stated. -/
theorem gas_conservation_counterexample :
    Call (mkEVM 1025 rulesOff) st0 1 5 [] 5 0 = ([], 5, some Err.ErrDepth, st0) ∧
      Err.ErrDepth ≠ Err.ErrExecutionReverted ∧ (5 : Nat) ≠ 0 := by
  exact ⟨rfl, by decide, by decide⟩

/-- C7 (amended): provided the dispatch collaborators never return more gas
than they are given, every call and create variant returns leftover gas at
most the gas it was given; and once the frame's preconditions pass, any error
other than `ErrExecutionReverted` — for create, any such rollback-triggering
error (Homestead active or the error is not `ErrCodeStoreOutOfGas`) — leaves
exactly zero gas. Precondition failures themselves return the given gas
unchanged. -/
theorem gas_conservation (evm : EVM)
    (hpre : ∀ a i g, (evm.runPrecompiled a i g).2.1 ≤ g)
    (hrun : ∀ stx c i ro, (evm.run stx c i ro).gas ≤ c.gas) :
    (∀ st caller addr input gas value,
      (Call evm st caller addr input gas value).2.1 ≤ gas) ∧
    (∀ st caller addr input gas value,
      (CallCode evm st caller addr input gas value).2.1 ≤ gas) ∧
    (∀ st caller addr input gas,
      (DelegateCall evm st caller addr input gas).2.1 ≤ gas) ∧
    (∀ st caller addr input gas,
      (StaticCall evm st caller addr input gas).2.1 ≤ gas) ∧
    (∀ st caller code gas value address,
      (create evm st caller code gas value address).2.2.1 ≤ gas) ∧
    (∀ st caller code gas value,
      (Create evm st caller code gas value).2.2.1 ≤ gas) ∧
    (∀ st caller code gas value salt,
      (Create2 evm st caller code gas value salt).2.2.1 ≤ gas) ∧
    (∀ st caller addr input gas value ret g e stO,
      ¬ CallCreateDepth < evm.depth →
      ¬ (value ≠ 0 ∧ evm.canTransfer st caller value = false) →
      Call evm st caller addr input gas value = (ret, g, some e, stO) →
      e ≠ Err.ErrExecutionReverted → g = 0) ∧
    (∀ st caller addr input gas value ret g e stO,
      ¬ CallCreateDepth < evm.depth →
      ¬ evm.canTransfer st caller value = false →
      CallCode evm st caller addr input gas value = (ret, g, some e, stO) →
      e ≠ Err.ErrExecutionReverted → g = 0) ∧
    (∀ st caller addr input gas ret g e stO,
      ¬ CallCreateDepth < evm.depth →
      DelegateCall evm st caller addr input gas = (ret, g, some e, stO) →
      e ≠ Err.ErrExecutionReverted → g = 0) ∧
    (∀ st caller addr input gas ret g e stO,
      ¬ CallCreateDepth < evm.depth →
      StaticCall evm st caller addr input gas = (ret, g, some e, stO) →
      e ≠ Err.ErrExecutionReverted → g = 0) ∧
    (∀ st caller code gas value address r a g e stO,
      ¬ CallCreateDepth < evm.depth →
      ¬ evm.canTransfer st caller value = false →
      ¬ (st.getNonce caller + 1) % 2 ^ 64 < st.getNonce caller →
      create evm st caller code gas value address = (r, a, g, some e, stO) →
      e ≠ Err.ErrExecutionReverted →
      (evm.chainRules.IsHomestead = true ∨ e ≠ Err.ErrCodeStoreOutOfGas) → g = 0) := by
  refine ⟨?_, ?_, ?_, ?_, ?_, ?_, ?_, ?_, ?_, ?_, ?_, ?_⟩
  · intro st caller addr input gas value
    exact Call_gas_le evm st caller addr input gas value hpre hrun
  · intro st caller addr input gas value
    exact CallCode_gas_le evm st caller addr input gas value hpre hrun
  · intro st caller addr input gas
    exact DelegateCall_gas_le evm st caller addr input gas hpre hrun
  · intro st caller addr input gas
    exact StaticCall_gas_le evm st caller addr input gas hpre hrun
  · intro st caller code gas value address
    exact create_gas_le evm st caller code gas value address hrun
  · intro st caller code gas value
    exact create_gas_le evm st caller code gas value _ hrun
  · intro st caller code gas value salt
    exact create_gas_le evm st caller code gas value _ hrun
  · intro st caller addr input gas value ret g e stO hd hv h he
    exact (Call_some_inv evm st caller addr input gas value ret g e stO hd hv h).2 he
  · intro st caller addr input gas value ret g e stO hd hv h he
    exact (CallCode_some_inv evm st caller addr input gas value ret g e stO hd hv h).2 he
  · intro st caller addr input gas ret g e stO hd h he
    exact (DelegateCall_some_inv evm st caller addr input gas ret g e stO hd h).2 he
  · intro st caller addr input gas ret g e stO hd h he
    exact (StaticCall_some_inv evm st caller addr input gas ret g e stO hd h).2 he
  · intro st caller code gas value address r a g e stO hd hv hn h he hrb
    exact create_some_inv evm st caller code gas value address r a g e stO hd hv hn h he hrb

/-- C7 witness: gas conservation evaluated on a concrete Call with budget 7
under the stub collaborators. -/
theorem gas_conservation_witness :
    (Call (mkEVM 0 rulesOff) st0 1 5 [] 7 0).2.1 ≤ 7 := by
  exact (gas_conservation (mkEVM 0 rulesOff) (fun _ _ g => Nat.le_refl g)
    (fun _ c _ _ => Nat.le_refl c.gas)).1 st0 1 5 [] 7 0

/-- C8: in create, once the caller's nonce has been bumped, no later step of
the create decrements it: the bump and the Berlin access-list marking precede
the snapshot, so the collision return and every rollback path leave them in
place. -/
theorem create_nonce_bump_never_reverted (evm : EVM) (st : StateDB) (caller : Nat)
    (code : List Nat) (gas value address : Nat)
    (hd : ¬ CallCreateDepth < evm.depth)
    (hv : ¬ evm.canTransfer st caller value = false)
    (hn : ¬ (st.getNonce caller + 1) % 2 ^ 64 < st.getNonce caller) :
    (createBumped evm st caller address).getNonce caller = st.getNonce caller + 1 ∧
    (evm.chainRules.IsBerlin = true →
      (createBumped evm st caller address).accessList.contains address = true) ∧
    (createCollision (createBumped evm st caller address) address →
      (create evm st caller code gas value address).2.2.2.2 =
        createBumped evm st caller address) ∧
    (∀ r a g e stOut,
      create evm st caller code gas value address = (r, a, g, some e, stOut) →
      (evm.chainRules.IsHomestead = true ∨ e ≠ Err.ErrCodeStoreOutOfGas) →
      stOut.getNonce caller = st.getNonce caller + 1 ∧
      (evm.chainRules.IsBerlin = true → stOut.accessList.contains address = true)) := by
  refine ⟨createBumped_getNonce evm st caller address, ?_, ?_, ?_⟩
  · intro hB
    exact createBumped_accessList evm st caller address hB
  · intro hc
    simp only [create]
    rw [if_neg hd, if_neg hv, if_neg hn, if_pos hc]
  · intro r a g e stOut h hrb
    simp only [create] at h
    rw [if_neg hd, if_neg hv, if_neg hn] at h
    split at h
    · simp only [Prod.mk.injEq, Option.some.injEq] at h
      obtain ⟨-, -, -, -, hs⟩ := h
      subst hs
      exact ⟨createBumped_getNonce evm st caller address,
        fun hB => createBumped_accessList evm st caller address hB⟩
    · have hout :=
        ((createFinish_some_inv _ _ _ _ _ _ _ r a g e stOut h).1 hrb).1
      subst hout
      exact ⟨createBumped_getNonce evm st caller address,
        fun hB => createBumped_accessList evm st caller address hB⟩

/-- C8 witness: under Berlin rules with caller 1 and target 9, the bumped
state records nonce 1 for the caller and address 9 on the access list. -/
theorem create_nonce_bump_never_reverted_witness :
    (createBumped evmB st0 1 9).getNonce 1 = st0.getNonce 1 + 1 ∧
      (createBumped evmB st0 1 9).accessList.contains 9 = true := by
  have h := create_nonce_bump_never_reverted evmB st0 1 [] 7 0 9
    (by decide) (by decide) (by decide)
  exact ⟨h.1, h.2.1 rfl⟩

/-- C9: CallCode evaluates the transfer-guard precondition for every call,
including when the value is zero, failing with `ErrInsufficientBalance` when
the guard declines, whereas Call's result at zero value is independent of the
transfer guard (the guard is only consulted when the value is non-zero). -/
theorem callcode_guard_always_call_guard_nonzero :
    (∀ (evm : EVM) (st : StateDB) (caller addr : Nat) (input : List Nat)
      (gas value : Nat),
      ¬ CallCreateDepth < evm.depth →
      evm.canTransfer st caller value = false →
      CallCode evm st caller addr input gas value =
        ([], gas, some Err.ErrInsufficientBalance, st)) ∧
    (∀ (evm : EVM) (guard : StateDB → Nat → Nat → Bool) (st : StateDB)
      (caller addr : Nat) (input : List Nat) (gas : Nat),
      Call { evm with canTransfer := guard } st caller addr input gas 0 =
        Call evm st caller addr input gas 0) := by
  refine ⟨?_, ?_⟩
  · intro evm st caller addr input gas value hd hv
    simp only [CallCode]
    rw [if_neg hd, if_pos hv]
  · intro evm guard st caller addr input gas
    rfl

/-- C9 witness: a CallCode with value 0 against a declining guard fails with
the balance error even though nothing would be transferred. -/
theorem callcode_guard_always_call_guard_nonzero_witness :
    CallCode noTransferEvm st0 1 5 [] 7 0 =
      ([], 7, some Err.ErrInsufficientBalance, st0) := by
  exact callcode_guard_always_call_guard_nonzero.1 noTransferEvm st0 1 5 [] 7 0
    (by decide) rfl

/-- C10: in StaticCall the snapshot is taken before the zero-amount balance
touch of the target, so on any dispatch error the rollback restores the state
from before the touch; the touch's effect survives only in the success
state, which is the dispatch output computed from the touched state. -/
theorem staticcall_touch_under_snapshot (evm : EVM) (st : StateDB)
    (caller addr : Nat) (input : List Nat) (gas : Nat)
    (hd : ¬ CallCreateDepth < evm.depth) :
    (∀ ret g e stOut,
      StaticCall evm st caller addr input gas = (ret, g, some e, stOut) → stOut = st) ∧
    (∀ ret g stOut,
      StaticCall evm st caller addr input gas = (ret, g, none, stOut) →
      stOut = (StaticCallBody evm (st.addBalance addr 0) caller addr input gas).2.2.2) := by
  refine ⟨?_, ?_⟩
  · intro ret g e stOut h
    exact (StaticCall_some_inv evm st caller addr input gas ret g e stOut hd h).1
  · intro ret g stOut h
    simp only [StaticCall] at h
    rw [if_neg hd] at h
    have hb := finishFrame_none_inv st _ ret g stOut h
    rw [hb]

/-- C10 witness: a concrete StaticCall whose interpreter faults; the returned
state is the entry state `wSt`, with both the touch and the interpreter's own
balance mutation undone. -/
theorem staticcall_touch_under_snapshot_witness :
    StaticCall faultEvm wSt 1 5 [] 9 = ([3], 0, some (Err.ErrFault 0), wSt) ∧
      wSt = wSt := by
  refine ⟨rfl, ?_⟩
  exact (staticcall_touch_under_snapshot faultEvm wSt 1 5 [] 9 (by decide)).1
    [3] 0 (Err.ErrFault 0) wSt rfl

end Geth
